import Mathlib

/-!
Verification of the NumPuzz sudoku engine (`src/app/utils/sudoku.ts` and the
game component in `src/unnamed/part_010`).

Grids are embedded as functions `Fin 9 → Fin 9 → Nat` (the TypeScript
`number[][]`, whose cells are small non-negative integers).  Memo grids are
`Fin 9 → Fin 9 → Finset Nat` (the TypeScript `Set<number>[][]`).  Recursive
search functions are embedded with an explicit fuel argument: every recursive
call of the TypeScript solver fills one empty cell, so the number of empty
cells (at most 81) bounds the recursion depth and fuel 82 always suffices.
-/

namespace NumPuzz

/-- A 9×9 digit grid, row-major; cell value 0 denotes "empty"
(TypeScript `number[][]`). -/
abbrev Grid := Fin 9 → Fin 9 → Nat

/-- A 9×9 grid of candidate ("memo") digit sets
(TypeScript `MemoGrid = Set<number>[][]`). -/
abbrev MemoGrid := Fin 9 → Fin 9 → Finset Nat

/-- All 81 cell coordinates in row-major order (row 0→8, within a row
col 0→8), the scanning order used by every loop in `sudoku.ts`. -/
def allCells : List (Fin 9 × Fin 9) :=
  (List.finRange 9).flatMap (fun r => (List.finRange 9).map (fun c => (r, c)))

/-- Writing a single cell of a grid (the TypeScript statement
`grid[row][col] = v` on a copied grid). -/
def setCell (g : Grid) (row col : Fin 9) (v : Nat) : Grid :=
  fun i j => if i = row ∧ j = col then v else g i j

/-- `isValidMove(grid, row, col, num)` from `sudoku.ts` lines 65–93: true iff
no other cell in the same row, the same column, or the same 3×3 block holds
`num`.  The source's three loops (row scan, column scan, block scan) are
rendered as three `List.all` scans; the block loop, which runs
`r ∈ [⌊row/3⌋·3, ⌊row/3⌋·3+2]`, `c ∈ [⌊col/3⌋·3, ⌊col/3⌋·3+2]`, is rendered
as a scan of all cells filtered to that block. -/
def isValidMove (g : Grid) (row col : Fin 9) (num : Nat) : Bool :=
  ((List.finRange 9).all (fun c => c = col || g row c ≠ num)) &&
  ((List.finRange 9).all (fun r => r = row || g r col ≠ num)) &&
  ((List.finRange 9).all (fun r => (List.finRange 9).all (fun c =>
    decide (¬(r.val / 3 = row.val / 3 ∧ c.val / 3 = col.val / 3)) ||
    (r = row && c = col) || g r c ≠ num)))

/-- `findEmptyCell(grid)` from `sudoku.ts` lines 453–462: the first cell in
row-major order holding 0, if any. -/
def findEmptyCell (g : Grid) : Option (Fin 9 × Fin 9) :=
  allCells.find? (fun p => g p.1 p.2 == 0)

/-- The digit list `1..9` tried in ascending order by the solver's inner
loop (`for (let num = 1; num <= 9; num++)`). -/
def digits : List Nat := [1, 2, 3, 4, 5, 6, 7, 8, 9]

/-- The digit loop of `solveSudokuRecursive` (`sudoku.ts` lines 434–447):
try each digit in order; on a digit passing `isValidMove`, place it and
recurse; return the first recursive success, otherwise keep trying.  The
TypeScript resets the cell to 0 after a failed recursive call, so in this
value-level embedding the loop simply continues with the unmodified grid. -/
def tryDigits (recur : Grid → Option Grid) (g : Grid) (row col : Fin 9) :
    List Nat → Option Grid
  | [] => none
  | d :: ds =>
    if isValidMove g row col d then
      match recur (setCell g row col d) with
      | some sol => some sol
      | none => tryDigits recur g row col ds
    else tryDigits recur g row col ds

/-- `solveSudokuRecursive(grid)` from `sudoku.ts` lines 422–450, with an
explicit fuel bound on the recursion depth (each call fills one empty cell,
so fuel 82 > 81 is never exhausted).  If no empty cell remains the grid is
returned as solved; otherwise the digits 1–9 are tried at the first empty
cell. -/
def solveRec : Nat → Grid → Option Grid
  | 0, _ => none
  | fuel + 1, g =>
    match findEmptyCell g with
    | none => some g
    | some (r, c) => tryDigits (solveRec fuel) g r c digits

/-- `solveSudoku(grid)` from `sudoku.ts` lines 410–419: run the backtracking
search (on a private copy in the source; copying is the identity on grid
values) and return the completed grid, or `none` when the search fails. -/
def solveSudoku (g : Grid) : Option Grid := solveRec 82 g

/-- The digit loop of `findAllSolutions` (`sudoku.ts` lines 490–496):
for each digit passing `isValidMove`, place it, recurse accumulating into
the solutions list, then undo the placement and continue with the next
digit.  The mutable `solutions` array is threaded as an accumulator. -/
def tryAllSolutions (recur : Grid → List Grid → List Grid) (g : Grid)
    (row col : Fin 9) : List Nat → List Grid → List Grid
  | [], sols => sols
  | d :: ds, sols =>
    if isValidMove g row col d then
      tryAllSolutions recur g row col ds (recur (setCell g row col d) sols)
    else tryAllSolutions recur g row col ds sols

/-- `findAllSolutions(grid, solutions, maxSolutions)` from `sudoku.ts`
lines 475–497, fuel-bounded as for `solveRec`: abort as soon as the
solutions list has reached `maxSolutions`; append the grid when it has no
empty cell; otherwise try all digits at the first empty cell. -/
def findAllSolutions : Nat → Grid → List Grid → Nat → List Grid
  | 0, _, sols, _ => sols
  | fuel + 1, g, sols, maxSolutions =>
    if sols.length ≥ maxSolutions then sols
    else
      match findEmptyCell g with
      | none => sols ++ [g]
      | some (r, c) =>
          tryAllSolutions (fun g' sols' => findAllSolutions fuel g' sols' maxSolutions)
            g r c digits sols

/-- `hasUniqueSolution(grid)` from `sudoku.ts` lines 465–472: collect at
most two solutions and report whether exactly one was found. -/
def hasUniqueSolution (g : Grid) : Bool :=
  (findAllSolutions 82 g [] 2).length == 1

/-- Two distinct cells are peers when they share a row, a column, or a 3×3
block (block index `⌊row/3⌋`, `⌊col/3⌋`; spec glossary "Peer"). -/
def IsPeer (p q : Fin 9 × Fin 9) : Prop :=
  p ≠ q ∧ (p.1 = q.1 ∨ p.2 = q.2 ∨
    (p.1.val / 3 = q.1.val / 3 ∧ p.2.val / 3 = q.2.val / 3))

instance (p q : Fin 9 × Fin 9) : Decidable (IsPeer p q) := by
  unfold IsPeer; infer_instance

/-- Every cell of the grid holds a value in `[0, 9]`. -/
def InRange (g : Grid) : Prop := ∀ i j, g i j ≤ 9

/-- The nonzero cells of the grid are pairwise rule-consistent: no two
distinct peer cells both hold the same nonzero digit. -/
def Consistent (g : Grid) : Prop :=
  ∀ p q : Fin 9 × Fin 9, IsPeer p q → g p.1 p.2 = g q.1 q.2 → g p.1 p.2 = 0

/-- `s` is a full rule-satisfying completion of `g`: every cell of `s` holds
a digit 1–9, `s` agrees with `g` on every nonzero cell of `g`, and no two
distinct peer cells of `s` hold the same digit. -/
def IsSolutionOf (g s : Grid) : Prop :=
  (∀ i j, 1 ≤ s i j ∧ s i j ≤ 9) ∧
  (∀ i j, g i j ≠ 0 → s i j = g i j) ∧
  (∀ p q : Fin 9 × Fin 9, IsPeer p q → s p.1 p.2 ≠ s q.1 q.2)

instance (g : Grid) : Decidable (InRange g) := by unfold InRange; infer_instance

instance (g : Grid) : Decidable (Consistent g) := by unfold Consistent; infer_instance

instance (g s : Grid) : Decidable (IsSolutionOf g s) := by
  unfold IsSolutionOf; infer_instance

/-- The set of empty cells of a grid (the measure that strictly decreases
at every recursive call of the TypeScript solver). -/
def emptyCells (g : Grid) : Finset (Fin 9 × Fin 9) :=
  Finset.univ.filter (fun p => g p.1 p.2 = 0)

/-- Number of rule-satisfying completions found by the unbounded
backtracking enumeration: 1 when the grid has no empty cell, otherwise the
sum over the valid digits at the first empty cell of the completions of the
grid extended by that digit.  This is a specification-side counting device
used to characterise `findAllSolutions`; it is not part of the source. -/
def countTry (recur : Grid → Nat) (g : Grid) (row col : Fin 9) : List Nat → Nat
  | [] => 0
  | d :: ds =>
    (if isValidMove g row col d then recur (setCell g row col d) else 0) +
      countTry recur g row col ds

/-- See `countTry`: fuel-bounded solution count of a grid. -/
def countSolutions : Nat → Grid → Nat
  | 0, _ => 0
  | fuel + 1, g =>
    match findEmptyCell g with
    | none => 1
    | some (r, c) => countTry (countSolutions fuel) g r c digits

/-! ### Memo (candidate annotation) operations, `sudoku.ts` lines 200–251 -/

/-- `toggleMemo(memoGrid, row, col, number)` from `sudoku.ts` lines 200–210:
copy the memo grid, then remove `number` from the cell's set if present,
else add it. -/
def toggleMemo (m : MemoGrid) (row col : Fin 9) (number : Nat) : MemoGrid :=
  fun i j =>
    if i = row ∧ j = col then
      if number ∈ m row col then (m row col).erase number
      else insert number (m row col)
    else m i j

/-- `clearCellMemo(memoGrid, row, col)` from `sudoku.ts` lines 213–217:
copy the memo grid and empty the one cell's set. -/
def clearCellMemo (m : MemoGrid) (row col : Fin 9) : MemoGrid :=
  fun i j => if i = row ∧ j = col then ∅ else m i j

/-- `autoRemoveMemos(memoGrid, row, col, number)` from `sudoku.ts`
lines 220–244: copy the memo grid and delete `number` from every cell of
the same row (the loop over `[row][c]`), the same column (the loop over
`[r][col]`), and the same 3×3 block.  The three loops together erase the
digit from exactly the cells sharing a row, column, or block with
(row,col) — including (row,col) itself, which all three loops visit. -/
def autoRemoveMemos (m : MemoGrid) (row col : Fin 9) (number : Nat) : MemoGrid :=
  fun i j =>
    if i = row ∨ j = col ∨ (i.val / 3 = row.val / 3 ∧ j.val / 3 = col.val / 3) then
      (m i j).erase number
    else m i j

/-- `clearAllMemos(memoGrid)` from `sudoku.ts` lines 247–251: a fresh 9×9
grid of empty sets. -/
def clearAllMemos (_ : MemoGrid) : MemoGrid := fun _ _ => ∅

/-! ### Progress, completion, difficulty, puzzle creation -/

/-- `isGameComplete(currentGrid, solution)` from `sudoku.ts` lines 53–62:
cell-for-cell equality of the two grids. -/
def isGameComplete (currentGrid solution : Grid) : Bool :=
  allCells.all (fun p => currentGrid p.1 p.2 == solution p.1 p.2)

/-- The `totalEmptyCells` counter of `calculateProgress` (`sudoku.ts`
lines 319–335): cells empty in the initial grid. -/
def totalEmptyCells (initialGrid : Grid) : Nat :=
  (allCells.filter (fun p => initialGrid p.1 p.2 == 0)).length

/-- The `filledCells` counter of `calculateProgress`: cells empty in the
initial grid but nonzero in the current grid. -/
def filledCells (currentGrid initialGrid : Grid) : Nat :=
  (allCells.filter (fun p =>
    initialGrid p.1 p.2 == 0 && currentGrid p.1 p.2 != 0)).length

/-- `calculateProgress(currentGrid, initialGrid)` from `sudoku.ts`
lines 319–335: return 100 when there is no empty initial cell, else
`Math.round((filledCells / totalEmptyCells) * 100)`.  The JavaScript
division is modelled as exact rational arithmetic; `Math.round` is
`round : ℚ → ℤ` (round half up, which agrees with `Math.round` on the
non-negative values arising here). -/
def calculateProgress (currentGrid initialGrid : Grid) : ℤ :=
  if totalEmptyCells initialGrid = 0 then 100
  else round ((filledCells currentGrid initialGrid : ℚ) /
    (totalEmptyCells initialGrid : ℚ) * 100)

/-- The difficulty labels of `SudokuPuzzle['difficulty']`. -/
inductive Difficulty
  | easy
  | medium
  | hard
  | expert
deriving DecidableEq

/-- `estimateDifficulty(grid)` from `sudoku.ts` lines 371–387: count the
nonzero cells and map the count through the fixed thresholds 50/40/30. -/
def estimateDifficulty (g : Grid) : Difficulty :=
  let filledCells := (allCells.filter (fun p => g p.1 p.2 != 0)).length
  if filledCells ≥ 50 then .easy
  else if filledCells ≥ 40 then .medium
  else if filledCells ≥ 30 then .hard
  else .expert

/-- The `SudokuPuzzle` record of `sudoku.ts` lines 2–11.  The
environment-dependent string fields (id from `Date.now()`, default title
and `createdAt` from the clock) are supplied by the caller of the
constructor functions below. -/
structure SudokuPuzzle where
  id : String
  title : String
  difficulty : Difficulty
  initialGrid : Grid
  solution : Option Grid
  createdAt : String
  source : Option String
  imageUrl : Option String

/-- `createPuzzleFromPhoto(grid, title?, originalImage?)` from `sudoku.ts`
lines 347–368: solve the grid; when `solveSudoku` returns null, **throw**
(`throw new Error('この問題は解くことができません')`, modelled as
`Except.error` of the message); otherwise build the puzzle record.  The
clock-derived strings `nowId` (`photo-${Date.now()}`), `nowTitle` (the
default title) and `nowIso` (`createdAt`) are parameters standing for the
ambient clock. -/
def createPuzzleFromPhoto (nowId nowTitle nowIso : String) (grid : Grid)
    (title : Option String) (originalImage : Option String) :
    Except String SudokuPuzzle :=
  match solveSudoku grid with
  | none => Except.error "この問題は解くことができません"
  | some solution =>
      Except.ok
        { id := nowId
          title := title.getD nowTitle
          difficulty := estimateDifficulty grid
          initialGrid := grid
          solution := some solution
          createdAt := nowIso
          source := some "upload"
          imageUrl := originalImage }

/-! ### The game state machine, `src/unnamed/part_010` lines 337–444

The React component state relevant to the board: the `SudokuState` record
of `sudoku.ts` lines 14–24 plus the component's `isComplete` flag.  The
clock-derived values (`lastModified`, recomputed `timeSpent`) are supplied
to each operation as the parameters `now` and `elapsed`. -/

structure GameState where
  puzzle : SudokuPuzzle
  currentGrid : Grid
  memoGrid : MemoGrid
  startedAt : String
  lastModified : String
  completedAt : Option String
  timeSpent : Nat
  hintsUsed : Nat
  isMemoryMode : Bool
  isComplete : Bool

/-- `createInitialState(puzzle)` from `sudoku.ts` lines 37–50: current grid
is a copy of the initial grid, memo grid all empty, memory mode off. -/
def createInitialState (puzzle : SudokuPuzzle) (now : String) : GameState :=
  { puzzle := puzzle
    currentGrid := fun i j => puzzle.initialGrid i j
    memoGrid := fun _ _ => ∅
    startedAt := now
    lastModified := now
    completedAt := none
    timeSpent := 0
    hintsUsed := 0
    isMemoryMode := false
    isComplete := false }

/-- `handleNumberInput(number)` from `part_010` lines 337–379 with the
selected cell as explicit coordinates: no-op when the game is complete or
the cell is a given (`initialGrid[row][col] !== 0`); in memory mode toggle
the memo; otherwise write the digit into the current grid and, for a
nonzero digit, run `autoRemoveMemos` then `clearCellMemo` on the cell. -/
def handleNumberInput (s : GameState) (row col : Fin 9) (number : Nat)
    (now : String) (elapsed : Nat) : GameState :=
  if s.isComplete then s
  else if s.puzzle.initialGrid row col ≠ 0 then s
  else if s.isMemoryMode then
    { s with
      memoGrid := toggleMemo s.memoGrid row col number
      lastModified := now
      timeSpent := elapsed }
  else
    let newGrid : Grid := fun i j => if i = row ∧ j = col then number else s.currentGrid i j
    let newMemoGrid :=
      if number ≠ 0 then
        clearCellMemo (autoRemoveMemos s.memoGrid row col number) row col
      else s.memoGrid
    { s with
      currentGrid := newGrid
      memoGrid := newMemoGrid
      lastModified := now
      timeSpent := elapsed }

/-- `handleClearCell()` from `part_010` lines 381–400: no-op when complete
or on a given cell; in memory mode clear the cell's memo set, otherwise
delegate to `handleNumberInput` with digit 0. -/
def handleClearCell (s : GameState) (row col : Fin 9)
    (now : String) (elapsed : Nat) : GameState :=
  if s.isComplete then s
  else if s.puzzle.initialGrid row col ≠ 0 then s
  else if s.isMemoryMode then
    { s with
      memoGrid := clearCellMemo s.memoGrid row col
      lastModified := now
      timeSpent := elapsed }
  else handleNumberInput s row col 0 now elapsed

/-- `handleToggleMemoryMode()` from `part_010` lines 402–410. -/
def handleToggleMemoryMode (s : GameState) (now : String) : GameState :=
  if s.isComplete then s
  else { s with isMemoryMode := !s.isMemoryMode, lastModified := now }

/-- `handleClearAllMemos()` from `part_010` lines 412–423. -/
def handleClearAllMemos (s : GameState) (now : String) (elapsed : Nat) : GameState :=
  if s.isComplete then s
  else
    { s with
      memoGrid := clearAllMemos s.memoGrid
      lastModified := now
      timeSpent := elapsed }

/-- `handleResetToInitial()` (confirmed path) from `part_010`
lines 425–444: restore the current grid to a copy of the initial grid and
empty every memo set. -/
def handleResetToInitial (s : GameState) (now : String) : GameState :=
  { s with
    currentGrid := fun i j => s.puzzle.initialGrid i j
    memoGrid := fun _ _ => ∅
    lastModified := now }

/-- The completion effect of `part_010` lines 296–313: when the current
grid equals the stored solution and the game is not yet complete, stamp
`completedAt` and freeze `timeSpent`. -/
def stampCompletion (s : GameState) (now : String) (elapsed : Nat) : GameState :=
  if s.isComplete then s
  else
    match s.puzzle.solution with
    | none => s
    | some sol =>
        if isGameComplete s.currentGrid sol then
          { s with isComplete := true, completedAt := some now, timeSpent := elapsed }
        else s

/-- The states reachable from `createInitialState` by the game's mutation
operations (`part_010`). -/
inductive Reachable (puzzle : SudokuPuzzle) : GameState → Prop
  | base (now : String) : Reachable puzzle (createInitialState puzzle now)
  | input {s} (row col : Fin 9) (number : Nat) (now : String) (elapsed : Nat) :
      Reachable puzzle s → Reachable puzzle (handleNumberInput s row col number now elapsed)
  | clear {s} (row col : Fin 9) (now : String) (elapsed : Nat) :
      Reachable puzzle s → Reachable puzzle (handleClearCell s row col now elapsed)
  | toggleMode {s} (now : String) :
      Reachable puzzle s → Reachable puzzle (handleToggleMemoryMode s now)
  | clearMemos {s} (now : String) (elapsed : Nat) :
      Reachable puzzle s → Reachable puzzle (handleClearAllMemos s now elapsed)
  | reset {s} (now : String) :
      Reachable puzzle s → Reachable puzzle (handleResetToInitial s now)
  | stamp {s} (now : String) (elapsed : Nat) :
      Reachable puzzle s → Reachable puzzle (stampCompletion s now elapsed)

/-! ### Store model for the mutation claims

The TypeScript solver mutates a JavaScript array in place;
`solveSudoku`/`hasUniqueSolution` first copy the caller's array
(`grid.map(row => [...row])`) and hand only the copy to the search.  To
state non-mutation of the *caller's* array the heap is made explicit: a
store is a list of grids addressed by index, `grid[row][col] = v` becomes
`writeCell`, and taking a copy appends a fresh grid to the store. -/

abbrev Store := List Grid

/-- Read the grid at address `i` (reads of absent addresses yield the empty
grid; they never occur in the modelled code). -/
def readGrid (s : Store) (i : Nat) : Grid := s.getD i (fun _ _ => 0)

/-- The in-place assignment `grids[i][row][col] = v`. -/
def writeCell (s : Store) (i : Nat) (row col : Fin 9) (v : Nat) : Store :=
  s.set i (setCell (readGrid s i) row col v)

/-- The digit loop of `solveSudokuRecursive` acting on the stored grid at
address `i`: place the digit, recurse, and on failure write the cell back
to 0 (the source's backtracking reset) before trying the next digit. -/
def tryDigitsM (recur : Store → Bool × Store) (i : Nat) (row col : Fin 9) :
    List Nat → Store → Bool × Store
  | [], s => (false, s)
  | d :: ds, s =>
    if isValidMove (readGrid s i) row col d then
      match recur (writeCell s i row col d) with
      | (true, s2) => (true, s2)
      | (false, s2) => tryDigitsM recur i row col ds (writeCell s2 i row col 0)
    else tryDigitsM recur i row col ds s

/-- `solveSudokuRecursive(grid)` acting on the stored grid at address `i`
(fuel-bounded as in `solveRec`). -/
def solveRecM : Nat → Nat → Store → Bool × Store
  | 0, _, s => (false, s)
  | fuel + 1, i, s =>
    match findEmptyCell (readGrid s i) with
    | none => (true, s)
    | some (r, c) => tryDigitsM (solveRecM fuel i) i r c digits s

/-- `solveSudoku(grid)` in the store model: copy the caller's grid at
address `i` to a fresh address (the `grid.map(row => [...row])` line), run
the search there, and return the solved copy or `none`. -/
def solveSudokuM (s : Store) (i : Nat) : Option Grid × Store :=
  match solveRecM 82 s.length (s ++ [readGrid s i]) with
  | (true, s2) => (some (readGrid s2 s.length), s2)
  | (false, s2) => (none, s2)

/-- The digit loop of `findAllSolutions` acting on the stored grid at
address `i`, threading the solutions list. -/
def tryAllM (recur : Store → List Grid → List Grid × Store) (i : Nat)
    (row col : Fin 9) : List Nat → Store → List Grid → List Grid × Store
  | [], s, sols => (sols, s)
  | d :: ds, s, sols =>
    if isValidMove (readGrid s i) row col d then
      match recur (writeCell s i row col d) sols with
      | (sols2, s2) => tryAllM recur i row col ds (writeCell s2 i row col 0) sols2
    else tryAllM recur i row col ds s sols

/-- `findAllSolutions(grid, solutions, maxSolutions)` in the store model:
solutions are pushed as copies (`grid.map(row => [...row])`), i.e. as grid
values. -/
def findAllSolutionsM : Nat → Nat → Store → List Grid → Nat → List Grid × Store
  | 0, _, s, sols, _ => (sols, s)
  | fuel + 1, i, s, sols, maxSolutions =>
    if sols.length ≥ maxSolutions then (sols, s)
    else
      match findEmptyCell (readGrid s i) with
      | none => (sols ++ [readGrid s i], s)
      | some (r, c) =>
          tryAllM (fun s' sols' => findAllSolutionsM fuel i s' sols' maxSolutions)
            i r c digits s sols

/-- `hasUniqueSolution(grid)` in the store model: copy the caller's grid
(`const tempGrid = grid.map(row => [...row])`), enumerate on the copy. -/
def hasUniqueSolutionM (s : Store) (i : Nat) : Bool × Store :=
  match findAllSolutionsM 82 s.length (s ++ [readGrid s i]) [] 2 with
  | (sols, s2) => (sols.length == 1, s2)

/-! ### Conflict detection (modelled from the spec) -/

/-- Modelled from the spec: `findConflicts` is imported from
`../utils/sudoku` and called by the game components
(`src/unnamed/part_010` line 318), but its definition is not among the
provided source files.  Spec §4.1: "for every nonzero cell, if it shares
its digit with any same-row, same-column, or same-block peer, add that
cell's coordinate to the result."  The conflict set is the list of such
coordinates in row-major order. -/
def findConflicts (g : Grid) : List (Fin 9 × Fin 9) :=
  allCells.filter (fun p =>
    g p.1 p.2 != 0 &&
      allCells.any (fun q => decide (IsPeer p q) && (g q.1 q.2 == g p.1 p.2)))

/-! ### Concrete grids used as witnesses and counterexamples -/

/-- Build a grid from row-major lists (missing entries read 0). -/
def gridOfRows (rows : List (List Nat)) : Grid :=
  fun i j => ((rows.getD i.val []).getD j.val 0)

/-- The grid with every cell 1: no empty cell, but massively conflicted. -/
def allOnes : Grid := fun _ _ => 1

/-- Row 0 holds 1–8 followed by a blank; the cell below the blank holds 9.
The first empty cell (0,8) admits no digit, so the search fails fast. -/
def unsolvableGrid : Grid := gridOfRows
  [[1, 2, 3, 4, 5, 6, 7, 8, 0],
   [0, 0, 0, 0, 0, 0, 0, 0, 9]]

/-- The initial grid of `SAMPLE_PUZZLE` (`src/unnamed/part_010`
lines 195–205). -/
def sampleGrid : Grid := gridOfRows
  [[5, 3, 0, 0, 7, 0, 0, 0, 0],
   [6, 0, 0, 1, 9, 5, 0, 0, 0],
   [0, 9, 8, 0, 0, 0, 0, 6, 0],
   [8, 0, 0, 0, 6, 0, 0, 0, 3],
   [4, 0, 0, 8, 0, 3, 0, 0, 1],
   [7, 0, 0, 0, 2, 0, 0, 0, 6],
   [0, 6, 0, 0, 0, 0, 2, 8, 0],
   [0, 0, 0, 4, 1, 9, 0, 0, 5],
   [0, 0, 0, 0, 8, 0, 0, 7, 9]]

/-- The solution grid of `SAMPLE_PUZZLE` (`src/unnamed/part_010`
lines 206–216). -/
def sampleSolutionGrid : Grid := gridOfRows
  [[5, 3, 4, 6, 7, 8, 9, 1, 2],
   [6, 7, 2, 1, 9, 5, 3, 4, 8],
   [1, 9, 8, 3, 4, 2, 5, 6, 7],
   [8, 5, 9, 7, 6, 1, 4, 2, 3],
   [4, 2, 6, 8, 5, 3, 7, 9, 1],
   [7, 1, 3, 9, 2, 4, 8, 5, 6],
   [9, 6, 1, 5, 3, 7, 2, 8, 4],
   [2, 8, 7, 4, 1, 9, 6, 3, 5],
   [3, 4, 5, 2, 8, 6, 1, 7, 9]]

/-- The sample puzzle record (clock strings chosen arbitrarily). -/
def samplePuzzle : SudokuPuzzle :=
  { id := "sample-001"
    title := "サンプル問題 1"
    difficulty := .medium
    initialGrid := sampleGrid
    solution := some sampleSolutionGrid
    createdAt := "2024-01-01T00:00:00.000Z"
    source := none
    imageUrl := none }

/-- A memo grid holding the single candidate 5 at cell (0,0). -/
def memoAtOrigin : MemoGrid :=
  fun i j => if i.val = 0 ∧ j.val = 0 then {5} else ∅

/-- A grid holding 5 at (0,0) and (0,4) (the spec's conflict scenario). -/
def conflictPairGrid : Grid := gridOfRows
  [[5, 0, 0, 0, 5, 0, 0, 0, 0]]

/-- A grid holding 5 at (0,0), (0,4) and (0,7) (three cells of one row
sharing a digit). -/
def conflictTripleGrid : Grid := gridOfRows
  [[5, 0, 0, 0, 5, 0, 0, 5, 0]]

/-! ## Basic lemmas -/

theorem mem_allCells (p : Fin 9 × Fin 9) : p ∈ allCells := by
  unfold allCells
  simp only [List.mem_flatMap, List.mem_map, List.mem_finRange]
  exact ⟨p.1, trivial, p.2, trivial, rfl⟩

theorem setCell_self (g : Grid) (row col : Fin 9) (v : Nat) :
    setCell g row col v row col = v := by
  simp [setCell]

theorem setCell_other (g : Grid) (row col : Fin 9) (v : Nat) (i j : Fin 9)
    (h : (i, j) ≠ (row, col)) : setCell g row col v i j = g i j := by
  unfold setCell
  rw [if_neg]
  intro hij
  exact h (by rw [hij.1, hij.2])

theorem IsPeer.symm {p q : Fin 9 × Fin 9} (h : IsPeer p q) : IsPeer q p := by
  obtain ⟨hne, hshare⟩ := h
  refine ⟨fun e => hne e.symm, ?_⟩
  rcases hshare with h1 | h2 | h3
  · exact Or.inl h1.symm
  · exact Or.inr (Or.inl h2.symm)
  · exact Or.inr (Or.inr ⟨h3.1.symm, h3.2.symm⟩)

theorem mem_digits_iff (d : Nat) : d ∈ digits ↔ 1 ≤ d ∧ d ≤ 9 := by
  simp only [digits, List.mem_cons, List.not_mem_nil, or_false]
  omega

theorem digits_nodup : digits.Nodup := by decide

theorem findEmptyCell_eq_none_iff (g : Grid) :
    findEmptyCell g = none ↔ ∀ i j, g i j ≠ 0 := by
  unfold findEmptyCell
  rw [List.find?_eq_none]
  constructor
  · intro h i j
    have := h (i, j) (mem_allCells _)
    simpa using this
  · intro h p _
    simpa using h p.1 p.2

theorem findEmptyCell_spec {g : Grid} {r c : Fin 9}
    (h : findEmptyCell g = some (r, c)) : g r c = 0 := by
  have := List.find?_some h
  simpa using this

theorem isValidMove_iff (g : Grid) (row col : Fin 9) (num : Nat) :
    isValidMove g row col num = true ↔
      ∀ q : Fin 9 × Fin 9, IsPeer (row, col) q → g q.1 q.2 ≠ num := by
  unfold isValidMove
  simp only [Bool.and_eq_true, List.all_eq_true, List.mem_finRange, Bool.or_eq_true,
    decide_eq_true_eq, true_implies]
  constructor
  · rintro ⟨⟨hrow, hcol⟩, hblock⟩ q hq
    obtain ⟨hne, hshare⟩ := hq
    rcases hshare with h1 | h2 | h3
    · have h1' : row = q.1 := h1
      rcases hrow q.2 with h | h
      · exact absurd (Prod.ext h1 h.symm) hne
      · rw [← h1']; exact h
    · have h2' : col = q.2 := h2
      rcases hcol q.1 with h | h
      · exact absurd (Prod.ext h.symm h2) hne
      · rw [← h2']; exact h
    · rcases hblock q.1 q.2 with (h | h) | h
      · exact absurd ⟨h3.1.symm, h3.2.symm⟩ h
      · exact absurd (Prod.ext h.1.symm h.2.symm) hne
      · exact h
  · intro h
    refine ⟨⟨fun c => ?_, fun r => ?_⟩, fun r c => ?_⟩
    · by_cases hc : c = col
      · exact Or.inl hc
      · exact Or.inr (h (row, c) ⟨fun e => hc (congrArg Prod.snd e).symm, Or.inl rfl⟩)
    · by_cases hr : r = row
      · exact Or.inl hr
      · exact Or.inr (h (r, col) ⟨fun e => hr (congrArg Prod.fst e).symm, Or.inr (Or.inl rfl)⟩)
    · by_cases hb : r.val / 3 = row.val / 3 ∧ c.val / 3 = col.val / 3
      · by_cases heq : r = row ∧ c = col
        · exact Or.inl (Or.inr heq)
        · refine Or.inr (h (r, c) ⟨?_, Or.inr (Or.inr ⟨hb.1.symm, hb.2.symm⟩)⟩)
          intro e
          exact heq ⟨(congrArg Prod.fst e).symm, (congrArg Prod.snd e).symm⟩
      · exact Or.inl (Or.inl hb)

theorem mem_emptyCells {g : Grid} {p : Fin 9 × Fin 9} :
    p ∈ emptyCells g ↔ g p.1 p.2 = 0 := by
  simp [emptyCells]

theorem card_emptyCells_le (g : Grid) : (emptyCells g).card ≤ 81 :=
  le_trans (Finset.card_filter_le _ _) (by simp)

theorem emptyCells_setCell {g : Grid} {r c : Fin 9} {v : Nat} (hv : v ≠ 0) :
    emptyCells (setCell g r c v) = (emptyCells g).erase (r, c) := by
  ext p
  simp only [mem_emptyCells, Finset.mem_erase]
  by_cases hp : p = (r, c)
  · subst hp
    simp only [setCell_self, ne_eq, not_true_eq_false, false_and, iff_false]
    exact hv
  · rw [show setCell g r c v p.1 p.2 = g p.1 p.2 from setCell_other g r c v p.1 p.2 (by simpa using hp)]
    simp [hp]

theorem card_emptyCells_setCell {g : Grid} {r c : Fin 9} {v : Nat}
    (hg : g r c = 0) (hv : v ≠ 0) :
    (emptyCells (setCell g r c v)).card < (emptyCells g).card := by
  rw [emptyCells_setCell hv]
  exact Finset.card_erase_lt_of_mem (mem_emptyCells.mpr hg)

theorem inRange_setCell {g : Grid} {r c : Fin 9} {v : Nat}
    (hg : InRange g) (hv : v ≤ 9) : InRange (setCell g r c v) := by
  intro i j
  unfold setCell
  split
  · exact hv
  · exact hg i j

theorem consistent_setCell {g : Grid} {r c : Fin 9} {d : Nat}
    (hg : Consistent g) (hvalid : isValidMove g r c d = true) :
    Consistent (setCell g r c d) := by
  rw [isValidMove_iff] at hvalid
  intro p q hpq heq
  by_cases hp : p = (r, c)
  · subst hp
    rw [setCell_other g r c d q.1 q.2 (by simpa using (Ne.symm hpq.1))] at heq
    rw [setCell_self] at heq
    exact absurd heq.symm (hvalid q hpq)
  · rw [setCell_other g r c d p.1 p.2 (by simpa using hp)] at heq ⊢
    by_cases hq : q = (r, c)
    · subst hq
      rw [setCell_self] at heq
      exact absurd heq (hvalid p hpq.symm)
    · rw [setCell_other g r c d q.1 q.2 (by simpa using hq)] at heq
      exact hg p q hpq heq

theorem isSolutionOf_setCell_iff {g : Grid} {r c : Fin 9} {d : Nat}
    (hrc : g r c = 0) (hd : d ≠ 0) (s : Grid) :
    IsSolutionOf (setCell g r c d) s ↔ IsSolutionOf g s ∧ s r c = d := by
  constructor
  · rintro ⟨h1, h2, h3⟩
    have hsrc : s r c = d := by
      have := h2 r c (by rw [setCell_self]; exact hd)
      rwa [setCell_self] at this
    refine ⟨⟨h1, fun i j hg => ?_, h3⟩, hsrc⟩
    have hne : (i, j) ≠ (r, c) := by
      intro e
      simp only [Prod.mk.injEq] at e
      rw [e.1, e.2] at hg
      exact hg hrc
    have := h2 i j (by rw [setCell_other g r c d i j hne]; exact hg)
    rwa [setCell_other g r c d i j hne] at this
  · rintro ⟨⟨h1, h2, h3⟩, hsrc⟩
    refine ⟨h1, fun i j hg => ?_, h3⟩
    by_cases hne : (i, j) = (r, c)
    · simp only [Prod.mk.injEq] at hne
      obtain ⟨hi, hj⟩ := hne
      subst hi
      subst hj
      rw [setCell_self]
      exact hsrc
    · rw [setCell_other g r c d i j hne] at hg ⊢
      exact h2 i j hg

theorem isValidMove_of_solution {g s : Grid} (hs : IsSolutionOf g s)
    (r c : Fin 9) :
    isValidMove g r c (s r c) = true := by
  rw [isValidMove_iff]
  intro q hq e
  by_cases h0 : g q.1 q.2 = 0
  · rw [h0] at e
    have := (hs.1 r c).1
    omega
  · have hag : s q.1 q.2 = g q.1 q.2 := hs.2.1 q.1 q.2 h0
    exact hs.2.2 (r, c) q hq (hag.trans e).symm

theorem isSolutionOf_self {g : Grid} (hr : InRange g) (hc : Consistent g)
    (hfull : ∀ i j, g i j ≠ 0) : IsSolutionOf g g :=
  ⟨fun i j => ⟨Nat.one_le_iff_ne_zero.mpr (hfull i j), hr i j⟩,
   fun _ _ _ => rfl,
   fun p q hpq heq => hfull p.1 p.2 (hc p q hpq heq)⟩

/-! ## Soundness and completeness of the backtracking solver -/

theorem tryDigits_eq_some {recur : Grid → Option Grid} {g : Grid} {row col : Fin 9}
    {ds : List Nat} {s : Grid} (h : tryDigits recur g row col ds = some s) :
    ∃ d ∈ ds, isValidMove g row col d = true ∧ recur (setCell g row col d) = some s := by
  induction ds with
  | nil => simp [tryDigits] at h
  | cons d ds ih =>
    rw [tryDigits] at h
    by_cases hv : isValidMove g row col d = true
    · rw [if_pos hv] at h
      cases hrec : recur (setCell g row col d) with
      | some t =>
        rw [hrec] at h
        have h' : some t = some s := h
        exact ⟨d, List.mem_cons_self d ds, hv, by rw [hrec]; exact h'⟩
      | none =>
        rw [hrec] at h
        have h' : tryDigits recur g row col ds = some s := h
        obtain ⟨d', hd', hv', hrec'⟩ := ih h'
        exact ⟨d', List.mem_cons_of_mem d hd', hv', hrec'⟩
    · rw [if_neg hv] at h
      obtain ⟨d', hd', hv', hrec'⟩ := ih h
      exact ⟨d', List.mem_cons_of_mem d hd', hv', hrec'⟩

theorem tryDigits_ne_none {recur : Grid → Option Grid} {g : Grid} {row col : Fin 9}
    {ds : List Nat} {d : Nat} (hd : d ∈ ds)
    (hv : isValidMove g row col d = true) {t : Grid}
    (ht : recur (setCell g row col d) = some t) :
    ∃ u, tryDigits recur g row col ds = some u := by
  induction ds with
  | nil => exact absurd hd (List.not_mem_nil d)
  | cons d' ds ih =>
    rw [tryDigits]
    by_cases hv' : isValidMove g row col d' = true
    · rw [if_pos hv']
      cases hrec : recur (setCell g row col d') with
      | some u => exact ⟨u, rfl⟩
      | none =>
        rcases List.mem_cons.mp hd with he | hd2
        · subst he
          rw [ht] at hrec
          exact absurd hrec (Option.some_ne_none t)
        · exact ih hd2
    · rw [if_neg hv']
      rcases List.mem_cons.mp hd with he | hd2
      · subst he
        exact absurd hv hv'
      · exact ih hd2

theorem solveRec_sound : ∀ (fuel : Nat) (g s : Grid), InRange g → Consistent g →
    solveRec fuel g = some s → IsSolutionOf g s := by
  intro fuel
  induction fuel with
  | zero =>
    intro g s _ _ h
    simp [solveRec] at h
  | succ fuel ih =>
    intro g s hr hc h
    rw [solveRec] at h
    cases hfind : findEmptyCell g with
    | none =>
      rw [hfind] at h
      have hgs : g = s := by simpa using h
      subst hgs
      exact isSolutionOf_self hr hc ((findEmptyCell_eq_none_iff g).mp hfind)
    | some rc =>
      obtain ⟨r, c⟩ := rc
      rw [hfind] at h
      obtain ⟨d, hd, hv, hrec⟩ := tryDigits_eq_some h
      have hd9 := (mem_digits_iff d).mp hd
      have hrc := findEmptyCell_spec hfind
      have hsol := ih (setCell g r c d) s (inRange_setCell hr hd9.2)
        (consistent_setCell hc hv) hrec
      exact ((isSolutionOf_setCell_iff hrc (by omega) s).mp hsol).1

theorem solveRec_isSome : ∀ (fuel : Nat) (g s : Grid),
    (emptyCells g).card < fuel → IsSolutionOf g s →
    ∃ t, solveRec fuel g = some t := by
  intro fuel
  induction fuel with
  | zero =>
    intro g s h _
    omega
  | succ fuel ih =>
    intro g s hcard hs
    rw [solveRec]
    cases hfind : findEmptyCell g with
    | none => exact ⟨g, rfl⟩
    | some rc =>
      obtain ⟨r, c⟩ := rc
      have hrc := findEmptyCell_spec hfind
      have h19 := hs.1 r c
      have hd : s r c ∈ digits := (mem_digits_iff _).mpr ⟨h19.1, h19.2⟩
      have hv := isValidMove_of_solution hs r c
      have hs' : IsSolutionOf (setCell g r c (s r c)) s :=
        (isSolutionOf_setCell_iff hrc (by omega) s).mpr ⟨hs, rfl⟩
      have hcard' : (emptyCells (setCell g r c (s r c))).card < fuel := by
        have h1 := card_emptyCells_setCell (v := s r c) hrc (by omega)
        omega
      obtain ⟨t, ht⟩ := ih (setCell g r c (s r c)) s hcard' hs'
      exact tryDigits_ne_none hd hv ht

/-! ## Counting solutions: the semantics of `findAllSolutions` -/

theorem countSolutions_none {fuel : Nat} {g : Grid} (h : findEmptyCell g = none) :
    countSolutions (fuel + 1) g = 1 := by
  rw [countSolutions, h]

theorem countSolutions_some {fuel : Nat} {g : Grid} {r c : Fin 9}
    (h : findEmptyCell g = some (r, c)) :
    countSolutions (fuel + 1) g = countTry (countSolutions fuel) g r c digits := by
  rw [countSolutions, h]

theorem tryAllSolutions_length {maxS : Nat}
    {recur : Grid → List Grid → List Grid} {cnt : Grid → Nat}
    (hrec : ∀ g' sols', sols'.length ≤ maxS →
      (recur g' sols').length = min (sols'.length + cnt g') maxS)
    (g : Grid) (row col : Fin 9) (ds : List Nat) (sols : List Grid)
    (hlen : sols.length ≤ maxS) :
    (tryAllSolutions recur g row col ds sols).length =
      min (sols.length + countTry cnt g row col ds) maxS := by
  induction ds generalizing sols with
  | nil =>
    rw [tryAllSolutions, countTry]
    omega
  | cons d ds ih =>
    rw [tryAllSolutions, countTry]
    by_cases hv : isValidMove g row col d = true
    · rw [if_pos hv, if_pos hv]
      have h1 := hrec (setCell g row col d) sols hlen
      rw [ih (recur (setCell g row col d) sols) (by omega)]
      omega
    · rw [if_neg hv, if_neg hv]
      rw [ih sols hlen]
      omega

theorem findAllSolutions_length : ∀ (fuel : Nat) (g : Grid) (sols : List Grid)
    (maxS : Nat), sols.length ≤ maxS →
    (findAllSolutions fuel g sols maxS).length =
      min (sols.length + countSolutions fuel g) maxS := by
  intro fuel
  induction fuel with
  | zero =>
    intro g sols maxS hlen
    rw [findAllSolutions, countSolutions]
    omega
  | succ fuel ih =>
    intro g sols maxS hlen
    by_cases hfull : sols.length ≥ maxS
    · have h1 : findAllSolutions (fuel + 1) g sols maxS = sols := by
        rw [findAllSolutions, if_pos hfull]
      rw [h1]
      omega
    · cases hfind : findEmptyCell g with
      | none =>
        have h1 : findAllSolutions (fuel + 1) g sols maxS = sols ++ [g] := by
          rw [findAllSolutions, if_neg hfull, hfind]
        rw [h1, countSolutions_none hfind, List.length_append]
        simp only [List.length_singleton]
        omega
      | some rc =>
        obtain ⟨r, c⟩ := rc
        have h1 : findAllSolutions (fuel + 1) g sols maxS =
            tryAllSolutions (fun g' s' => findAllSolutions fuel g' s' maxS)
              g r c digits sols := by
          rw [findAllSolutions, if_neg hfull, hfind]
        rw [h1, countSolutions_some hfind]
        exact tryAllSolutions_length (fun g' s' h => ih g' s' maxS h) g r c digits sols hlen

theorem countTry_branch_le {cnt : Grid → Nat} {g : Grid} {row col : Fin 9}
    {d : Nat} {ds : List Nat} (hd : d ∈ ds)
    (hv : isValidMove g row col d = true) :
    cnt (setCell g row col d) ≤ countTry cnt g row col ds := by
  induction ds with
  | nil => cases hd
  | cons d' ds ih =>
    rw [countTry]
    rcases List.mem_cons.mp hd with he | hd2
    · subst he
      rw [if_pos hv]
      omega
    · have := ih hd2
      omega

theorem countTry_pos {cnt : Grid → Nat} {g : Grid} {row col : Fin 9}
    {ds : List Nat} (h : 1 ≤ countTry cnt g row col ds) :
    ∃ d ∈ ds, isValidMove g row col d = true ∧ 1 ≤ cnt (setCell g row col d) := by
  induction ds with
  | nil =>
    rw [countTry] at h
    omega
  | cons d ds ih =>
    rw [countTry] at h
    by_cases hv : isValidMove g row col d = true
    · rw [if_pos hv] at h
      by_cases hb : 1 ≤ cnt (setCell g row col d)
      · exact ⟨d, List.mem_cons_self d ds, hv, hb⟩
      · obtain ⟨d', h1, h2, h3⟩ := ih (by omega)
        exact ⟨d', List.mem_cons_of_mem d h1, h2, h3⟩
    · rw [if_neg hv] at h
      obtain ⟨d', h1, h2, h3⟩ := ih (by omega)
      exact ⟨d', List.mem_cons_of_mem d h1, h2, h3⟩

theorem countTry_two_aux {cnt : Grid → Nat} {g : Grid} {row col : Fin 9}
    {ds : List Nat} {d1 d2 : Nat} (hne : d1 ≠ d2)
    (h1 : d1 ∈ ds) (h2 : d2 ∈ ds)
    (hv1 : isValidMove g row col d1 = true) (hv2 : isValidMove g row col d2 = true)
    (hc1 : 1 ≤ cnt (setCell g row col d1)) (hc2 : 1 ≤ cnt (setCell g row col d2)) :
    2 ≤ countTry cnt g row col ds := by
  induction ds with
  | nil => cases h1
  | cons d ds ih =>
    rw [countTry]
    rcases List.mem_cons.mp h1 with he1 | hm1
    · subst he1
      rw [if_pos hv1]
      have hm2 : d2 ∈ ds := by
        rcases List.mem_cons.mp h2 with he2 | hm2
        · exact absurd he2.symm hne
        · exact hm2
      have hle : cnt (setCell g row col d2) ≤ countTry cnt g row col ds :=
        countTry_branch_le hm2 hv2
      omega
    · rcases List.mem_cons.mp h2 with he2 | hm2
      · subst he2
        rw [if_pos hv2]
        have hle : cnt (setCell g row col d1) ≤ countTry cnt g row col ds :=
          countTry_branch_le hm1 hv1
        omega
      · have := ih hm1 hm2
        omega

theorem countTry_two_cases {cnt : Grid → Nat} {g : Grid} {row col : Fin 9}
    {ds : List Nat} (hnd : ds.Nodup) (h : 2 ≤ countTry cnt g row col ds) :
    (∃ d ∈ ds, isValidMove g row col d = true ∧ 2 ≤ cnt (setCell g row col d)) ∨
    (∃ d1 ∈ ds, ∃ d2 ∈ ds, d1 ≠ d2 ∧
      isValidMove g row col d1 = true ∧ isValidMove g row col d2 = true ∧
      1 ≤ cnt (setCell g row col d1) ∧ 1 ≤ cnt (setCell g row col d2)) := by
  induction ds with
  | nil =>
    rw [countTry] at h
    omega
  | cons d ds ih =>
    rw [countTry] at h
    obtain ⟨hd_nm, hnd'⟩ := List.nodup_cons.mp hnd
    by_cases hv : isValidMove g row col d = true
    · rw [if_pos hv] at h
      by_cases hb2 : 2 ≤ cnt (setCell g row col d)
      · exact Or.inl ⟨d, List.mem_cons_self d ds, hv, hb2⟩
      · by_cases hb1 : 1 ≤ cnt (setCell g row col d)
        · have hpos : 1 ≤ countTry cnt g row col ds := by omega
          obtain ⟨d2, hd2, hv2, hc2⟩ := countTry_pos hpos
          refine Or.inr ⟨d, List.mem_cons_self d ds, d2, List.mem_cons_of_mem d hd2,
            ?_, hv, hv2, hb1, hc2⟩
          intro e
          exact hd_nm (e ▸ hd2)
        · rcases ih hnd' (by omega) with ⟨d', hd', hv', hc'⟩ | ⟨da, hda, db, hdb, hab, hva, hvb, hca, hcb⟩
          · exact Or.inl ⟨d', List.mem_cons_of_mem d hd', hv', hc'⟩
          · exact Or.inr ⟨da, List.mem_cons_of_mem d hda, db, List.mem_cons_of_mem d hdb,
              hab, hva, hvb, hca, hcb⟩
    · rw [if_neg hv] at h
      rcases ih hnd' (by omega) with ⟨d', hd', hv', hc'⟩ | ⟨da, hda, db, hdb, hab, hva, hvb, hca, hcb⟩
      · exact Or.inl ⟨d', List.mem_cons_of_mem d hd', hv', hc'⟩
      · exact Or.inr ⟨da, List.mem_cons_of_mem d hda, db, List.mem_cons_of_mem d hdb,
          hab, hva, hvb, hca, hcb⟩

theorem countSolutions_pos_of_solution : ∀ (fuel : Nat) (g s : Grid),
    (emptyCells g).card < fuel → IsSolutionOf g s →
    1 ≤ countSolutions fuel g := by
  intro fuel
  induction fuel with
  | zero =>
    intro g s h _
    omega
  | succ fuel ih =>
    intro g s hcard hs
    cases hfind : findEmptyCell g with
    | none =>
      rw [countSolutions_none hfind]
    | some rc =>
      obtain ⟨r, c⟩ := rc
      rw [countSolutions_some hfind]
      have hrc := findEmptyCell_spec hfind
      have h19 := hs.1 r c
      have hd : s r c ∈ digits := (mem_digits_iff _).mpr ⟨h19.1, h19.2⟩
      have hv := isValidMove_of_solution hs r c
      have hs' : IsSolutionOf (setCell g r c (s r c)) s :=
        (isSolutionOf_setCell_iff hrc (by omega) s).mpr ⟨hs, rfl⟩
      have hcard' : (emptyCells (setCell g r c (s r c))).card < fuel := by
        have := card_emptyCells_setCell (v := s r c) hrc (by omega)
        omega
      have hpos := ih (setCell g r c (s r c)) s hcard' hs'
      have hle : countSolutions fuel (setCell g r c (s r c)) ≤
          countTry (countSolutions fuel) g r c digits :=
        countTry_branch_le hd hv
      omega

theorem exists_solution_of_countSolutions_pos : ∀ (fuel : Nat) (g : Grid),
    InRange g → Consistent g → 1 ≤ countSolutions fuel g →
    ∃ s, IsSolutionOf g s := by
  intro fuel
  induction fuel with
  | zero =>
    intro g _ _ h
    rw [countSolutions] at h
    omega
  | succ fuel ih =>
    intro g hr hc h
    cases hfind : findEmptyCell g with
    | none =>
      exact ⟨g, isSolutionOf_self hr hc ((findEmptyCell_eq_none_iff g).mp hfind)⟩
    | some rc =>
      obtain ⟨r, c⟩ := rc
      rw [countSolutions_some hfind] at h
      obtain ⟨d, hd, hv, hpos⟩ := countTry_pos h
      have hd9 := (mem_digits_iff d).mp hd
      have hrc := findEmptyCell_spec hfind
      obtain ⟨s, hs⟩ := ih (setCell g r c d) (inRange_setCell hr hd9.2)
        (consistent_setCell hc hv) hpos
      exact ⟨s, ((isSolutionOf_setCell_iff hrc (by omega) s).mp hs).1⟩

theorem countSolutions_two_of_two : ∀ (fuel : Nat) (g s1 s2 : Grid),
    (emptyCells g).card < fuel → IsSolutionOf g s1 → IsSolutionOf g s2 →
    s1 ≠ s2 → 2 ≤ countSolutions fuel g := by
  intro fuel
  induction fuel with
  | zero =>
    intro g s1 s2 h _ _ _
    omega
  | succ fuel ih =>
    intro g s1 s2 hcard hs1 hs2 hne
    cases hfind : findEmptyCell g with
    | none =>
      exfalso
      have hfull := (findEmptyCell_eq_none_iff g).mp hfind
      have e1 : s1 = g := funext fun i => funext fun j => hs1.2.1 i j (hfull i j)
      have e2 : s2 = g := funext fun i => funext fun j => hs2.2.1 i j (hfull i j)
      exact hne (e1.trans e2.symm)
    | some rc =>
      obtain ⟨r, c⟩ := rc
      rw [countSolutions_some hfind]
      have hrc := findEmptyCell_spec hfind
      have h19a := hs1.1 r c
      have h19b := hs2.1 r c
      have hd1 : s1 r c ∈ digits := (mem_digits_iff _).mpr ⟨h19a.1, h19a.2⟩
      have hd2 : s2 r c ∈ digits := (mem_digits_iff _).mpr ⟨h19b.1, h19b.2⟩
      have hv1 := isValidMove_of_solution hs1 r c
      have hv2 := isValidMove_of_solution hs2 r c
      have hb1 : IsSolutionOf (setCell g r c (s1 r c)) s1 :=
        (isSolutionOf_setCell_iff hrc (by omega) s1).mpr ⟨hs1, rfl⟩
      have hb2 : IsSolutionOf (setCell g r c (s2 r c)) s2 :=
        (isSolutionOf_setCell_iff hrc (by omega) s2).mpr ⟨hs2, rfl⟩
      have hcard' : (emptyCells (setCell g r c (s1 r c))).card < fuel := by
        have := card_emptyCells_setCell (v := s1 r c) hrc (by omega)
        omega
      by_cases hdd : s1 r c = s2 r c
      · have hb2' : IsSolutionOf (setCell g r c (s1 r c)) s2 := by
          rw [hdd]
          exact hb2
        have h2 := ih (setCell g r c (s1 r c)) s1 s2 hcard' hb1 hb2' hne
        have hle : countSolutions fuel (setCell g r c (s1 r c)) ≤
            countTry (countSolutions fuel) g r c digits :=
          countTry_branch_le hd1 hv1
        omega
      · have hcard2 : (emptyCells (setCell g r c (s2 r c))).card < fuel := by
          have := card_emptyCells_setCell (v := s2 r c) hrc (by omega)
          omega
        have hp1 := countSolutions_pos_of_solution fuel (setCell g r c (s1 r c)) s1 hcard' hb1
        have hp2 := countSolutions_pos_of_solution fuel (setCell g r c (s2 r c)) s2 hcard2 hb2
        exact countTry_two_aux hdd hd1 hd2 hv1 hv2 hp1 hp2

theorem two_solutions_of_countSolutions_two : ∀ (fuel : Nat) (g : Grid),
    InRange g → Consistent g → 2 ≤ countSolutions fuel g →
    ∃ s1 s2, IsSolutionOf g s1 ∧ IsSolutionOf g s2 ∧ s1 ≠ s2 := by
  intro fuel
  induction fuel with
  | zero =>
    intro g _ _ h
    rw [countSolutions] at h
    omega
  | succ fuel ih =>
    intro g hr hc h
    cases hfind : findEmptyCell g with
    | none =>
      rw [countSolutions_none hfind] at h
      omega
    | some rc =>
      obtain ⟨r, c⟩ := rc
      rw [countSolutions_some hfind] at h
      have hrc := findEmptyCell_spec hfind
      rcases countTry_two_cases digits_nodup h with
        ⟨d, hd, hv, hc2⟩ | ⟨d1, hd1, d2, hd2, hdd, hv1, hv2, hp1, hp2⟩
      · have hd9 := (mem_digits_iff d).mp hd
        obtain ⟨s1, s2, hs1, hs2, hne⟩ := ih (setCell g r c d)
          (inRange_setCell hr hd9.2) (consistent_setCell hc hv) hc2
        exact ⟨s1, s2, ((isSolutionOf_setCell_iff hrc (by omega) s1).mp hs1).1,
          ((isSolutionOf_setCell_iff hrc (by omega) s2).mp hs2).1, hne⟩
      · have hd19 := (mem_digits_iff d1).mp hd1
        have hd29 := (mem_digits_iff d2).mp hd2
        obtain ⟨s1, hs1⟩ := exists_solution_of_countSolutions_pos fuel (setCell g r c d1)
          (inRange_setCell hr hd19.2) (consistent_setCell hc hv1) hp1
        obtain ⟨s2, hs2⟩ := exists_solution_of_countSolutions_pos fuel (setCell g r c d2)
          (inRange_setCell hr hd29.2) (consistent_setCell hc hv2) hp2
        have e1 := (isSolutionOf_setCell_iff hrc (by omega) s1).mp hs1
        have e2 := (isSolutionOf_setCell_iff hrc (by omega) s2).mp hs2
        refine ⟨s1, s2, e1.1, e2.1, fun e => hdd ?_⟩
        rw [← e1.2, ← e2.2, e]

/-! ## Claims C1, C2, C8: the solver and the uniqueness checker -/

/-- No grid is a rule-satisfying completion of the all-ones grid: any
completion would agree with it on every (nonzero) cell and so repeat the
digit 1 across row 0. -/
theorem allOnes_has_no_solution : ∀ s, ¬IsSolutionOf allOnes s := by
  intro s hs
  have h1 : s 0 0 = 1 := hs.2.1 0 0 (by decide)
  have h2 : s 0 1 = 1 := hs.2.1 0 1 (by decide)
  exact hs.2.2 (0, 0) (0, 1) (by decide) (h1.trans h2.symm)

set_option maxRecDepth 1000000 in
/-- C1, counterexample: the all-ones grid has every cell in [0,9] and no
rule-satisfying completion (it is already conflicted), yet `solveSudoku`
returns it instead of null — the solver never validates pre-filled cells,
so the claimed "returns null iff no completion exists" and "no two distinct
peer cells of the result share a digit" both fail on it. -/
theorem solveSudoku_returns_conflicted_grid :
    solveSudoku allOnes = some allOnes ∧ (∀ s, ¬IsSolutionOf allOnes s) :=
  ⟨rfl, allOnes_has_no_solution⟩

/-- C1 (amended: for input grids whose nonzero cells are pairwise
rule-consistent): `solveSudoku` returns only full rule-satisfying
completions that agree with the input on its nonzero cells, and returns
null exactly when no such completion exists. -/
theorem solveSudoku_correct_on_consistent (g : Grid)
    (hr : InRange g) (hc : Consistent g) :
    (∀ s, solveSudoku g = some s → IsSolutionOf g s) ∧
    (solveSudoku g = none ↔ ¬∃ s, IsSolutionOf g s) := by
  constructor
  · intro s h
    exact solveRec_sound 82 g s hr hc h
  · constructor
    · rintro h ⟨s, hs⟩
      have hcard : (emptyCells g).card < 82 := by
        have := card_emptyCells_le g
        omega
      obtain ⟨t, ht⟩ := solveRec_isSome 82 g s hcard hs
      unfold solveSudoku at h
      rw [h] at ht
      exact Option.noConfusion ht
    · intro h
      cases hcase : solveSudoku g with
      | none => rfl
      | some s => exact absurd ⟨s, solveRec_sound 82 g s hr hc hcase⟩ h

set_option maxRecDepth 1000000 in
/-- Witness for C1 (amended) at a concrete consistent grid on which the
solver fails fast. -/
theorem solveSudoku_correct_on_consistent_witness :
    InRange unsolvableGrid ∧ Consistent unsolvableGrid ∧
    ((∀ s, solveSudoku unsolvableGrid = some s → IsSolutionOf unsolvableGrid s) ∧
     (solveSudoku unsolvableGrid = none ↔ ¬∃ s, IsSolutionOf unsolvableGrid s)) := by
  have h1 : InRange unsolvableGrid := by decide
  have h2 : Consistent unsolvableGrid := by decide
  exact ⟨h1, h2, solveSudoku_correct_on_consistent unsolvableGrid h1 h2⟩

set_option maxRecDepth 1000000 in
/-- C2, counterexample: on the all-ones grid — which admits zero
rule-satisfying completions — `findAllSolutions` immediately records the
(conflicted) full grid itself, so `hasUniqueSolution` answers true although
the number of rule-satisfying completions is zero, not one. -/
theorem hasUniqueSolution_true_without_solution :
    hasUniqueSolution allOnes = true ∧ (∀ s, ¬IsSolutionOf allOnes s) :=
  ⟨rfl, allOnes_has_no_solution⟩

/-- C2 (amended: for input grids whose nonzero cells are pairwise
rule-consistent): `hasUniqueSolution` answers true exactly when the grid
has exactly one rule-satisfying completion; the enumeration is capped at
two solutions, so the answer is false both for zero and for two or more
completions. -/
theorem hasUniqueSolution_iff_unique_completion (g : Grid)
    (hr : InRange g) (hc : Consistent g) :
    hasUniqueSolution g = true ↔ ∃! s, IsSolutionOf g s := by
  have hlen := findAllSolutions_length 82 g [] 2 (by simp)
  have hcard : (emptyCells g).card < 82 := by
    have := card_emptyCells_le g
    omega
  unfold hasUniqueSolution
  rw [beq_iff_eq]
  simp only [List.length_nil, Nat.zero_add] at hlen
  constructor
  · intro h
    obtain ⟨s, hs⟩ := exists_solution_of_countSolutions_pos 82 g hr hc (by omega)
    refine ⟨s, hs, fun t ht => ?_⟩
    by_contra hne
    have := countSolutions_two_of_two 82 g t s hcard ht hs hne
    omega
  · rintro ⟨s, hs, huniq⟩
    have h1 := countSolutions_pos_of_solution 82 g s hcard hs
    have h2 : ¬2 ≤ countSolutions 82 g := by
      intro h2
      obtain ⟨s1, s2, hs1, hs2, hne⟩ := two_solutions_of_countSolutions_two 82 g hr hc h2
      exact hne ((huniq s1 hs1).trans (huniq s2 hs2).symm)
    omega

set_option maxRecDepth 1000000 in
/-- Witness for C2 (amended) at the sample puzzle's initial grid. -/
theorem hasUniqueSolution_iff_unique_completion_witness :
    InRange sampleGrid ∧ Consistent sampleGrid ∧
    (hasUniqueSolution sampleGrid = true ↔ ∃! s, IsSolutionOf sampleGrid s) := by
  have h1 : InRange sampleGrid := by decide
  have h2 : Consistent sampleGrid := by decide
  exact ⟨h1, h2, hasUniqueSolution_iff_unique_completion sampleGrid h1 h2⟩

/-- C8: `solveSudoku` on a complete valid grid returns that same grid: the
row-major scan finds no empty cell and the search returns its input
unchanged. -/
theorem solveSudoku_idempotent_on_complete (g : Grid)
    (hfull : ∀ i j, 1 ≤ g i j ∧ g i j ≤ 9)
    (_hvalid : ∀ p q : Fin 9 × Fin 9, IsPeer p q → g p.1 p.2 ≠ g q.1 q.2) :
    solveSudoku g = some g := by
  have hnone : findEmptyCell g = none :=
    (findEmptyCell_eq_none_iff g).mpr fun i j => by
      have := (hfull i j).1
      omega
  show solveRec 82 g = some g
  rw [show (82 : Nat) = 81 + 1 from rfl, solveRec, hnone]

set_option maxRecDepth 1000000 in
/-- Witness for C8 at the sample puzzle's solution grid. -/
theorem solveSudoku_idempotent_on_complete_witness :
    (∀ i j, 1 ≤ sampleSolutionGrid i j ∧ sampleSolutionGrid i j ≤ 9) ∧
    (∀ p q : Fin 9 × Fin 9, IsPeer p q →
      sampleSolutionGrid p.1 p.2 ≠ sampleSolutionGrid q.1 q.2) ∧
    solveSudoku sampleSolutionGrid = some sampleSolutionGrid := by
  have h1 : ∀ i j, 1 ≤ sampleSolutionGrid i j ∧ sampleSolutionGrid i j ≤ 9 := by decide
  have h2 : ∀ p q : Fin 9 × Fin 9, IsPeer p q →
      sampleSolutionGrid p.1 p.2 ≠ sampleSolutionGrid q.1 q.2 := by decide
  exact ⟨h1, h2, solveSudoku_idempotent_on_complete sampleSolutionGrid h1 h2⟩

/-! ## Claims C5 and C10: the memo operations -/

theorem toggleMemo_at (m : MemoGrid) (row col : Fin 9) (d : Nat) :
    toggleMemo m row col d row col =
      if d ∈ m row col then (m row col).erase d else insert d (m row col) := by
  unfold toggleMemo
  rw [if_pos ⟨rfl, rfl⟩]

theorem toggleMemo_other (m : MemoGrid) (row col : Fin 9) (d : Nat) {i j : Fin 9}
    (h : ¬(i = row ∧ j = col)) : toggleMemo m row col d i j = m i j := by
  unfold toggleMemo
  rw [if_neg h]

/-- C10: toggling a memo digit twice restores every cell's candidate set;
a single toggle changes only the targeted cell, adding the digit when it
was absent and removing it when present. -/
theorem toggleMemo_involutive (m : MemoGrid) (row col : Fin 9) (d : Nat) :
    (∀ i j, toggleMemo (toggleMemo m row col d) row col d i j = m i j) ∧
    (∀ i j, ¬(i = row ∧ j = col) → toggleMemo m row col d i j = m i j) ∧
    (d ∉ m row col → toggleMemo m row col d row col = insert d (m row col)) ∧
    (d ∈ m row col → toggleMemo m row col d row col = (m row col).erase d) := by
  refine ⟨?_, fun i j h => toggleMemo_other m row col d h,
    fun h => by rw [toggleMemo_at, if_neg h],
    fun h => by rw [toggleMemo_at, if_pos h]⟩
  intro i j
  by_cases hij : i = row ∧ j = col
  · obtain ⟨hi, hj⟩ := hij
    subst hi
    subst hj
    rw [toggleMemo_at, toggleMemo_at]
    by_cases hm : d ∈ m i j
    · rw [if_pos hm, if_neg (Finset.not_mem_erase d _), Finset.insert_erase hm]
    · rw [if_neg hm, if_pos (Finset.mem_insert_self d _), Finset.erase_insert hm]
  · rw [toggleMemo_other _ _ _ _ hij, toggleMemo_other _ _ _ _ hij]

/-- Witness for C10 at a concrete memo grid. -/
theorem toggleMemo_involutive_witness :
    toggleMemo (toggleMemo memoAtOrigin 0 0 5) 0 0 5 0 0 = memoAtOrigin 0 0 ∧
    toggleMemo memoAtOrigin 0 0 5 2 2 = memoAtOrigin 2 2 ∧
    toggleMemo memoAtOrigin 0 0 3 0 0 = insert 3 (memoAtOrigin 0 0) ∧
    toggleMemo memoAtOrigin 0 0 5 0 0 = (memoAtOrigin 0 0).erase 5 :=
  ⟨(toggleMemo_involutive memoAtOrigin 0 0 5).1 0 0,
   (toggleMemo_involutive memoAtOrigin 0 0 5).2.1 2 2 (by decide),
   (toggleMemo_involutive memoAtOrigin 0 0 3).2.2.1 (by decide),
   (toggleMemo_involutive memoAtOrigin 0 0 5).2.2.2 (by decide)⟩

/-- C5, counterexample: `autoRemoveMemos` also erases the digit from the
committed cell's *own* candidate set — the row, column and block loops all
visit (row,col) itself — so a cell that is not a peer of (row,col) (namely
(row,col) itself) does not keep its prior candidate set, contrary to the
claim. -/
theorem autoRemoveMemos_changes_own_cell :
    autoRemoveMemos memoAtOrigin 0 0 5 0 0 ≠ memoAtOrigin 0 0 := by
  decide

/-- C5 (amended: the digit is removed from every cell sharing a row,
column, or block with (row,col) — the peers *and* (row,col) itself — and
every other cell's candidate set is unchanged). -/
theorem autoRemoveMemos_spec (m : MemoGrid) (row col : Fin 9) (d : Nat) :
    (∀ i j, (i = row ∨ j = col ∨ (i.val / 3 = row.val / 3 ∧ j.val / 3 = col.val / 3)) →
      d ∉ autoRemoveMemos m row col d i j) ∧
    (∀ i j, ¬(i = row ∨ j = col ∨ (i.val / 3 = row.val / 3 ∧ j.val / 3 = col.val / 3)) →
      autoRemoveMemos m row col d i j = m i j) := by
  constructor
  · intro i j h
    unfold autoRemoveMemos
    rw [if_pos h]
    exact Finset.not_mem_erase d _
  · intro i j h
    unfold autoRemoveMemos
    rw [if_neg h]

/-- Witness for C5 (amended): after committing 5 at (0,0), the digit is
gone from the row peer (0,3) and the unrelated cell (4,4) is unchanged. -/
theorem autoRemoveMemos_spec_witness :
    5 ∉ autoRemoveMemos memoAtOrigin 0 0 5 0 3 ∧
    autoRemoveMemos memoAtOrigin 0 0 5 4 4 = memoAtOrigin 4 4 :=
  ⟨(autoRemoveMemos_spec memoAtOrigin 0 0 5).1 0 3 (Or.inl rfl),
   (autoRemoveMemos_spec memoAtOrigin 0 0 5).2 4 4 (by decide)⟩

/-! ## Claim C6: progress computation -/

/-- C6, counterexample: on a puzzle whose initial grid has no blank cell,
a current grid equal to the initial grid yields progress 100, not the 0 the
claim's "returns 0 when currentGrid equals initialGrid" consequence
demands. -/
theorem calculateProgress_no_blanks_counterexample :
    calculateProgress sampleSolutionGrid sampleSolutionGrid = 100 ∧
    calculateProgress sampleSolutionGrid sampleSolutionGrid ≠ 0 := by
  constructor
  · decide
  · decide

/-- C6 (amended: the "returns 0 when currentGrid = initialGrid" consequence
holds only when at least one non-given cell exists; with zero non-given
cells the function returns 100 even then): `calculateProgress` returns 100
when no initial cell is blank, otherwise `round(100·filled/total)`; it
returns 0 for an untouched grid with blanks and 100 for any fully filled
current grid. -/
theorem calculateProgress_spec (cur ini : Grid) :
    (totalEmptyCells ini = 0 → calculateProgress cur ini = 100) ∧
    (totalEmptyCells ini ≠ 0 → calculateProgress cur ini =
      round (100 * (filledCells cur ini : ℚ) / (totalEmptyCells ini : ℚ))) ∧
    (cur = ini → totalEmptyCells ini ≠ 0 → calculateProgress cur ini = 0) ∧
    ((∀ i j, cur i j ≠ 0) → calculateProgress cur ini = 100) := by
  refine ⟨fun h => ?_, fun h => ?_, fun he h => ?_, fun hfull => ?_⟩
  · unfold calculateProgress
    rw [if_pos h]
  · unfold calculateProgress
    rw [if_neg h]
    congr 1
    ring
  · subst he
    have hf : filledCells cur cur = 0 := by
      unfold filledCells
      rw [List.length_eq_zero]
      rw [List.filter_eq_nil_iff]
      intro p _
      by_cases hp : cur p.1 p.2 = 0 <;> simp [hp]
    unfold calculateProgress
    rw [if_neg h, hf]
    norm_num
  · have hf : filledCells cur ini = totalEmptyCells ini := by
      unfold filledCells totalEmptyCells
      congr 1
      apply List.filter_congr
      intro p _
      have : (cur p.1 p.2 != 0) = true := by
        simpa using hfull p.1 p.2
      rw [this, Bool.and_true]
    unfold calculateProgress
    by_cases h : totalEmptyCells ini = 0
    · rw [if_pos h]
    · rw [if_neg h, hf]
      rw [div_self (by exact_mod_cast h), one_mul]
      norm_num

/-- Witness for C6: the sample puzzle starts at 0% and ends at 100%; a
blank-free puzzle reports 100%. -/
theorem calculateProgress_spec_witness :
    totalEmptyCells sampleGrid ≠ 0 ∧
    calculateProgress sampleGrid sampleGrid = 0 ∧
    calculateProgress sampleSolutionGrid sampleGrid = 100 ∧
    calculateProgress sampleSolutionGrid sampleSolutionGrid = 100 := by
  have ht : totalEmptyCells sampleGrid ≠ 0 := by decide
  have hfull : ∀ i j, sampleSolutionGrid i j ≠ 0 := by decide
  exact ⟨ht, (calculateProgress_spec sampleGrid sampleGrid).2.2.1 rfl ht,
    (calculateProgress_spec sampleSolutionGrid sampleGrid).2.2.2 hfull,
    (calculateProgress_spec sampleSolutionGrid sampleSolutionGrid).2.2.2 hfull⟩

/-! ## Claim C4: conflict detection (modelled from the spec) -/

/-- C4: a coordinate is in the conflict set exactly when its cell is
nonzero and some peer (same row, column, or block) holds the same digit;
in the spec's scenario with 5 at (0,0) and (0,4) both cells are reported,
and likewise when three cells of a row share the digit. -/
theorem findConflicts_spec :
    (∀ (g : Grid) (p : Fin 9 × Fin 9),
      p ∈ findConflicts g ↔
        g p.1 p.2 ≠ 0 ∧ ∃ q, IsPeer p q ∧ g q.1 q.2 = g p.1 p.2) ∧
    ((0, 0) ∈ findConflicts conflictPairGrid ∧
      (0, 4) ∈ findConflicts conflictPairGrid) ∧
    ((0, 0) ∈ findConflicts conflictTripleGrid ∧
      (0, 4) ∈ findConflicts conflictTripleGrid ∧
      (0, 7) ∈ findConflicts conflictTripleGrid) := by
  refine ⟨fun g p => ?_, ?_, ?_⟩
  · unfold findConflicts
    rw [List.mem_filter]
    simp only [Bool.and_eq_true, bne_iff_ne, List.any_eq_true, decide_eq_true_eq,
      beq_iff_eq, ne_eq]
    constructor
    · rintro ⟨_, hne, q, _, hq⟩
      exact ⟨hne, q, hq⟩
    · rintro ⟨hne, q, hq⟩
      exact ⟨mem_allCells p, hne, q, mem_allCells q, hq⟩
  · have e : findConflicts conflictPairGrid = [(0, 0), (0, 4)] := by decide
    rw [e]
    exact ⟨by decide, by decide⟩
  · have e : findConflicts conflictTripleGrid = [(0, 0), (0, 4), (0, 7)] := by decide
    rw [e]
    exact ⟨by decide, by decide, by decide⟩

/-- Witness for C4 at the spec's conflict scenario. -/
theorem findConflicts_spec_witness :
    (0, 0) ∈ findConflicts conflictPairGrid ↔
      conflictPairGrid 0 0 ≠ 0 ∧
        ∃ q, IsPeer (0, 0) q ∧ conflictPairGrid q.1 q.2 = conflictPairGrid 0 0 :=
  findConflicts_spec.1 conflictPairGrid (0, 0)

/-! ## Claim C3: puzzle creation throws on unsatisfiable grids -/

set_option maxRecDepth 1000000 in
/-- C3, counterexample: on an unsatisfiable grid `createPuzzleFromPhoto`
does not return a failure value — it throws (`Except.error` in this
embedding), so "never an exception/unwind" fails; the caller
(`CreatePuzzle.tsx`) wraps the call in try/catch. -/
theorem createPuzzleFromPhoto_throws_on_unsolvable :
    createPuzzleFromPhoto "id" "t" "c" unsolvableGrid none none =
      Except.error "この問題は解くことができません" := rfl

/-- C3 (amended: engine functions return values except that
`createPuzzleFromPhoto` throws an Error — modelled as `Except.error` — when
`solveSudoku` returns null; the caller catches it): the outcome of puzzle
creation is fully determined by the solver's answer. -/
theorem createPuzzleFromPhoto_spec (nowId nowTitle nowIso : String) (g : Grid)
    (title originalImage : Option String) :
    (solveSudoku g = none →
      createPuzzleFromPhoto nowId nowTitle nowIso g title originalImage =
        Except.error "この問題は解くことができません") ∧
    (∀ s, solveSudoku g = some s →
      createPuzzleFromPhoto nowId nowTitle nowIso g title originalImage =
        Except.ok
          { id := nowId
            title := title.getD nowTitle
            difficulty := estimateDifficulty g
            initialGrid := g
            solution := some s
            createdAt := nowIso
            source := some "upload"
            imageUrl := originalImage }) := by
  constructor
  · intro h
    unfold createPuzzleFromPhoto
    rw [h]
  · intro s h
    unfold createPuzzleFromPhoto
    rw [h]

set_option maxRecDepth 1000000 in
/-- Witness for C3 (amended) at a concrete unsatisfiable grid. -/
theorem createPuzzleFromPhoto_spec_witness :
    solveSudoku unsolvableGrid = none ∧
    createPuzzleFromPhoto "photo-0" "photo title" "now" unsolvableGrid none none =
      Except.error "この問題は解くことができません" := by
  have h : solveSudoku unsolvableGrid = none := rfl
  exact ⟨h,
    (createPuzzleFromPhoto_spec "photo-0" "photo title" "now" unsolvableGrid none none).1 h⟩

/-! ## Claim C7: given cells are never overwritten -/

/-- Every reachable state still carries the puzzle it was created from and
agrees with that puzzle's initial grid on every given cell. -/
theorem reachable_invariant (puzzle : SudokuPuzzle) (s : GameState)
    (h : Reachable puzzle s) :
    s.puzzle = puzzle ∧
    ∀ row col, puzzle.initialGrid row col ≠ 0 →
      s.currentGrid row col = puzzle.initialGrid row col := by
  induction h with
  | base now => exact ⟨rfl, fun _ _ _ => rfl⟩
  | @input s row col number now elapsed _ ih =>
    obtain ⟨hpz, hag⟩ := ih
    unfold handleNumberInput
    by_cases h1 : s.isComplete
    · rw [if_pos h1]
      exact ⟨hpz, hag⟩
    · rw [if_neg h1]
      by_cases h2 : s.puzzle.initialGrid row col ≠ 0
      · rw [if_pos h2]
        exact ⟨hpz, hag⟩
      · rw [if_neg h2]
        by_cases h3 : s.isMemoryMode
        · rw [if_pos h3]
          exact ⟨hpz, hag⟩
        · rw [if_neg h3]
          refine ⟨hpz, fun r c hg => ?_⟩
          show (if r = row ∧ c = col then number else s.currentGrid r c) =
            puzzle.initialGrid r c
          by_cases h4 : r = row ∧ c = col
          · exfalso
            obtain ⟨hr, hc⟩ := h4
            subst hr
            subst hc
            rw [hpz] at h2
            exact h2 hg
          · rw [if_neg h4]
            exact hag r c hg
  | @clear s row col now elapsed _ ih =>
    obtain ⟨hpz, hag⟩ := ih
    unfold handleClearCell
    by_cases h1 : s.isComplete
    · rw [if_pos h1]
      exact ⟨hpz, hag⟩
    · rw [if_neg h1]
      by_cases h2 : s.puzzle.initialGrid row col ≠ 0
      · rw [if_pos h2]
        exact ⟨hpz, hag⟩
      · rw [if_neg h2]
        by_cases h3 : s.isMemoryMode
        · rw [if_pos h3]
          exact ⟨hpz, hag⟩
        · rw [if_neg h3]
          unfold handleNumberInput
          rw [if_neg h1, if_neg h2, if_neg h3]
          refine ⟨hpz, fun r c hg => ?_⟩
          show (if r = row ∧ c = col then 0 else s.currentGrid r c) =
            puzzle.initialGrid r c
          by_cases h4 : r = row ∧ c = col
          · exfalso
            obtain ⟨hr, hc⟩ := h4
            subst hr
            subst hc
            rw [hpz] at h2
            exact h2 hg
          · rw [if_neg h4]
            exact hag r c hg
  | @toggleMode s now _ ih =>
    obtain ⟨hpz, hag⟩ := ih
    unfold handleToggleMemoryMode
    by_cases h1 : s.isComplete
    · rw [if_pos h1]
      exact ⟨hpz, hag⟩
    · rw [if_neg h1]
      exact ⟨hpz, hag⟩
  | @clearMemos s now elapsed _ ih =>
    obtain ⟨hpz, hag⟩ := ih
    unfold handleClearAllMemos
    by_cases h1 : s.isComplete
    · rw [if_pos h1]
      exact ⟨hpz, hag⟩
    · rw [if_neg h1]
      exact ⟨hpz, hag⟩
  | @reset s now _ ih =>
    obtain ⟨hpz, hag⟩ := ih
    refine ⟨hpz, fun r c _ => ?_⟩
    show s.puzzle.initialGrid r c = puzzle.initialGrid r c
    rw [hpz]
  | @stamp s now elapsed _ ih =>
    obtain ⟨hpz, hag⟩ := ih
    unfold stampCompletion
    split
    · exact ⟨hpz, hag⟩
    · split
      · exact ⟨hpz, hag⟩
      · split
        · exact ⟨hpz, hag⟩
        · exact ⟨hpz, hag⟩

/-- C7: on every state reachable from `createInitialState` by the game's
mutation operations, a digit input or a cell clear aimed at a given cell
(`initialGrid[row][col] ≠ 0`) is a no-op, and the current grid agrees with
the puzzle's initial grid on every given cell. -/
theorem givens_never_overwritten (puzzle : SudokuPuzzle) (s : GameState)
    (h : Reachable puzzle s) :
    (∀ row col number now elapsed, puzzle.initialGrid row col ≠ 0 →
      handleNumberInput s row col number now elapsed = s) ∧
    (∀ row col now elapsed, puzzle.initialGrid row col ≠ 0 →
      handleClearCell s row col now elapsed = s) ∧
    (∀ row col, puzzle.initialGrid row col ≠ 0 →
      s.currentGrid row col = puzzle.initialGrid row col) := by
  obtain ⟨hpz, hag⟩ := reachable_invariant puzzle s h
  refine ⟨fun row col number now elapsed hg => ?_,
    fun row col now elapsed hg => ?_, hag⟩
  · unfold handleNumberInput
    by_cases h1 : s.isComplete
    · rw [if_pos h1]
    · rw [if_neg h1, if_pos (show s.puzzle.initialGrid row col ≠ 0 by rw [hpz]; exact hg)]
  · unfold handleClearCell
    by_cases h1 : s.isComplete
    · rw [if_pos h1]
    · rw [if_neg h1, if_pos (show s.puzzle.initialGrid row col ≠ 0 by rw [hpz]; exact hg)]

/-- Witness for C7 at the sample puzzle's initial state and its given cell
(0,0). -/
theorem givens_never_overwritten_witness :
    samplePuzzle.initialGrid 0 0 ≠ 0 ∧
    handleNumberInput (createInitialState samplePuzzle "t0") 0 0 9 "t1" 1 =
      createInitialState samplePuzzle "t0" ∧
    handleClearCell (createInitialState samplePuzzle "t0") 0 0 "t1" 1 =
      createInitialState samplePuzzle "t0" ∧
    (createInitialState samplePuzzle "t0").currentGrid 0 0 =
      samplePuzzle.initialGrid 0 0 := by
  have h := givens_never_overwritten samplePuzzle
    (createInitialState samplePuzzle "t0") (Reachable.base "t0")
  have hg : samplePuzzle.initialGrid 0 0 ≠ 0 := by decide
  exact ⟨hg, h.1 0 0 9 "t1" 1 hg, h.2.1 0 0 "t1" 1 hg, h.2.2 0 0 hg⟩

/-! ## Claim C9: the search never mutates the caller's grid -/

theorem readGrid_writeCell_ne {s : Store} {i k : Nat} (h : k ≠ i)
    (row col : Fin 9) (v : Nat) :
    readGrid (writeCell s i row col v) k = readGrid s k := by
  unfold readGrid writeCell
  rw [List.getD_eq_getD_get?, List.getD_eq_getD_get?, List.get?_eq_getElem?,
    List.get?_eq_getElem?, List.getElem?_set_ne (Ne.symm h)]

theorem tryDigitsM_frame {recur : Store → Bool × Store} {i : Nat}
    (hrec : ∀ s k, k ≠ i → readGrid (recur s).2 k = readGrid s k)
    (row col : Fin 9) (ds : List Nat) (s : Store) (k : Nat) (hk : k ≠ i) :
    readGrid (tryDigitsM recur i row col ds s).2 k = readGrid s k := by
  induction ds generalizing s with
  | nil => rw [tryDigitsM]
  | cons d ds ih =>
    rw [tryDigitsM]
    by_cases hv : isValidMove (readGrid s i) row col d = true
    · rw [if_pos hv]
      cases hr : recur (writeCell s i row col d) with
      | mk b s2 =>
        have h2 : readGrid s2 k = readGrid s k := by
          have hx := hrec (writeCell s i row col d) k hk
          rw [hr] at hx
          rwa [readGrid_writeCell_ne hk] at hx
        cases b with
        | true => exact h2
        | false =>
          show readGrid (tryDigitsM recur i row col ds (writeCell s2 i row col 0)).2 k =
            readGrid s k
          rw [ih (writeCell s2 i row col 0), readGrid_writeCell_ne hk]
          exact h2
    · rw [if_neg hv]
      exact ih s

theorem solveRecM_frame : ∀ (fuel i : Nat) (s : Store) (k : Nat), k ≠ i →
    readGrid (solveRecM fuel i s).2 k = readGrid s k := by
  intro fuel
  induction fuel with
  | zero =>
    intro i s k _
    rw [solveRecM]
  | succ fuel ih =>
    intro i s k hk
    rw [solveRecM]
    cases hfind : findEmptyCell (readGrid s i) with
    | none => rfl
    | some rc =>
      obtain ⟨r, c⟩ := rc
      exact tryDigitsM_frame (fun s' k' hk' => ih i s' k' hk') r c digits s k hk

theorem tryAllM_frame {recur : Store → List Grid → List Grid × Store} {i : Nat}
    (hrec : ∀ s sols k, k ≠ i → readGrid (recur s sols).2 k = readGrid s k)
    (row col : Fin 9) (ds : List Nat) (s : Store) (sols : List Grid) (k : Nat)
    (hk : k ≠ i) :
    readGrid (tryAllM recur i row col ds s sols).2 k = readGrid s k := by
  induction ds generalizing s sols with
  | nil => rw [tryAllM]
  | cons d ds ih =>
    rw [tryAllM]
    by_cases hv : isValidMove (readGrid s i) row col d = true
    · rw [if_pos hv]
      cases hr : recur (writeCell s i row col d) sols with
      | mk sols2 s2 =>
        have h2 : readGrid s2 k = readGrid s k := by
          have hx := hrec (writeCell s i row col d) sols k hk
          rw [hr] at hx
          rwa [readGrid_writeCell_ne hk] at hx
        show readGrid (tryAllM recur i row col ds (writeCell s2 i row col 0) sols2).2 k =
          readGrid s k
        rw [ih (writeCell s2 i row col 0) sols2, readGrid_writeCell_ne hk]
        exact h2
    · rw [if_neg hv]
      exact ih s sols

theorem findAllSolutionsM_frame : ∀ (fuel i : Nat) (s : Store) (sols : List Grid)
    (maxS : Nat) (k : Nat), k ≠ i →
    readGrid (findAllSolutionsM fuel i s sols maxS).2 k = readGrid s k := by
  intro fuel
  induction fuel with
  | zero =>
    intro i s sols maxS k _
    rw [findAllSolutionsM]
  | succ fuel ih =>
    intro i s sols maxS k hk
    rw [findAllSolutionsM]
    by_cases hfull : sols.length ≥ maxS
    · rw [if_pos hfull]
    · rw [if_neg hfull]
      cases hfind : findEmptyCell (readGrid s i) with
      | none => rfl
      | some rc =>
        obtain ⟨r, c⟩ := rc
        exact tryAllM_frame (fun s' sols' k' hk' => ih i s' sols' maxS k' hk')
          r c digits s sols k hk

/-- C9: `solveSudoku` and `hasUniqueSolution` run their search on a private
copy (a fresh store address holding a copy of the grid), mutating only that
copy; after either call, the caller's grid at its store address holds
exactly the values it held before. -/
theorem solver_preserves_caller_grid (s : Store) (i : Nat) (h : i < s.length) :
    readGrid (solveSudokuM s i).2 i = readGrid s i ∧
    readGrid (hasUniqueSolutionM s i).2 i = readGrid s i := by
  have hne : i ≠ s.length := Nat.ne_of_lt h
  have happend : readGrid (s ++ [readGrid s i]) i = readGrid s i := by
    unfold readGrid
    exact List.getD_append _ _ _ _ h
  constructor
  · unfold solveSudokuM
    cases h82 : solveRecM 82 s.length (s ++ [readGrid s i]) with
    | mk b s2 =>
      have hfr : readGrid s2 i = readGrid s i := by
        have hx := solveRecM_frame 82 s.length (s ++ [readGrid s i]) i hne
        rw [h82] at hx
        rw [hx, happend]
      cases b with
      | true => exact hfr
      | false => exact hfr
  · unfold hasUniqueSolutionM
    cases h82 : findAllSolutionsM 82 s.length (s ++ [readGrid s i]) [] 2 with
    | mk sols s2 =>
      have hx := findAllSolutionsM_frame 82 s.length (s ++ [readGrid s i]) [] 2 i hne
      rw [h82] at hx
      rw [hx, happend]

/-- Witness for C9 at a one-grid store. -/
theorem solver_preserves_caller_grid_witness :
    0 < [allOnes].length ∧
    readGrid ((solveSudokuM [allOnes] 0).2) 0 = readGrid [allOnes] 0 ∧
    readGrid ((hasUniqueSolutionM [allOnes] 0).2) 0 = readGrid [allOnes] 0 := by
  have h := solver_preserves_caller_grid [allOnes] 0 (by decide)
  exact ⟨by decide, h.1, h.2⟩

end NumPuzz
